import Mathlib

/-!
Verification development for the GopherCaptain deployment orchestrator.

The Go sources are shallowly embedded as pure Lean functions.  External
side effects (GitHub downloads, systemd commands, MariaDB statements,
filesystem writes) act on an explicit `World` record; whether such a call
succeeds is chosen by an `Eff` oracle record, one flag per call site whose
error the Go code observes.  Calls whose errors the Go code deliberately
ignores (for example the restart after a failed upgrade) are modelled as
always applying their effect, so the embedded control flow matches the
code's observable control flow exactly.

Machine integers carry no overflow concerns here (ports and timestamps are
small), so they are modelled as `Nat`.
-/

namespace GC

/-- Service record, from `internal/state/store.go` (`Service`).  The extra
environment map is represented as a key-sorted association list (Go's JSON
encoder serializes map keys in sorted order, so this is the canonical form);
timestamps are Unix seconds as `Nat`. -/
structure Service where
  name : String
  repo : String
  version : String
  prevVersion : String
  port : Nat
  routeType : String
  routeValue : String
  dbName : String
  dbUser : String
  extraEnv : List (String × String)
  deployedAt : Nat
  updatedAt : Nat
deriving Repr, DecidableEq

/-- History ledger entry, from `internal/state/store.go` (`HistoryEntry`).
The autoincrement id column is left implicit (position in the list). -/
structure HistoryEntry where
  service : String
  action : String
  version : String
  timestamp : Nat
  detail : List (String × String)
deriving Repr, DecidableEq

/-- The external world the orchestrator mutates: files on disk, systemd
objects, MariaDB schemas, nginx configs, and the state store's tables. -/
structure World where
  /-- versioned binaries present under `/opt/gophercaptain/bin/name/`,
  as (service, version) pairs -/
  artifacts : List (String × String)
  /-- current-version symlinks, an association of service to target version -/
  symlinks : List (String × String)
  /-- services whose `gc_name` database and principal exist -/
  databases : List String
  /-- services whose `/etc/gophercaptain/name` directory exists -/
  envDirs : List String
  /-- services whose secrets (env/config) file exists -/
  envFiles : List String
  /-- dedicated `gc-name` system accounts -/
  users : List String
  /-- services with a written systemd unit file -/
  units : List String
  /-- services whose unit is enabled -/
  enabled : List String
  /-- services whose process is currently active -/
  running : List String
  /-- services with a live nginx config -/
  nginxConfigs : List String
  /-- the state store's services table -/
  services : List Service
  /-- the state store's append-only history table -/
  history : List HistoryEntry
deriving Repr, DecidableEq

/-- Oracle for the outcome of each fallible external call the orchestrator
observes.  One flag per call site; the generated database password and the
nginx failure text are data the environment supplies. -/
structure Eff where
  /-- outcome of `ResolveVersion` (`none` = resolution failed) -/
  resolved : Option String
  downloadOk : Bool
  createDbOk : Bool
  dbPassword : String
  mkdirOk : Bool
  writeEnvOk : Bool
  createUserOk : Bool
  writeUnitOk : Bool
  daemonReloadOk : Bool
  enableOk : Bool
  startOk : Bool
  stopOk : Bool
  symlinkOk : Bool
  healthOk : Bool
  nginxWriteOk : Bool
  /-- the error text surfaced when the nginx write fails -/
  nginxErrMsg : String
  /-- an I/O fault while inserting the Service record (sqlite failure) -/
  insertFault : Bool
  dropDbOk : Bool
  rbBinaryOk : Bool
  rbEnvOk : Bool
  rbUserOk : Bool
  rbNginxOk : Bool
deriving Repr, DecidableEq

/-! ### State store (`internal/state/store.go`), service-level semantics -/

/-- `GetService`: lookup by name; `none` is the distinguished not-found
outcome (`ErrNotFound`). -/
def getService (ss : List Service) (name : String) : Option Service :=
  ss.find? (fun s => s.name = name)

/-- `InsertService`: fails on an I/O fault or when the `name` primary key or
the `port UNIQUE` constraint of the schema would be violated. -/
def insertService (fault : Bool) (ss : List Service) (svc : Service) :
    Option (List Service) :=
  if fault then none
  else if ss.any (fun s => s.name = svc.name ∨ s.port = svc.port) then none
  else some (ss ++ [svc])

/-- `UpdateService`: replaces the record with the given name; `none` when no
row is affected (`ErrNotFound`). -/
def updateService (ss : List Service) (svc : Service) : Option (List Service) :=
  if ss.any (fun s => s.name = svc.name) then
    some (ss.map (fun s => if s.name = svc.name then svc else s))
  else none

/-- `DeleteService`: removes the record with the given name; `none` when no
row is affected (`ErrNotFound`). -/
def deleteService (ss : List Service) (name : String) : Option (List Service) :=
  if ss.any (fun s => s.name = name) then
    some (ss.filter (fun s => ¬ s.name = name))
  else none

/-- `UsedPorts`: all ports currently assigned to services. -/
def usedPorts (ss : List Service) : List Nat :=
  ss.map (fun s => s.port)

/-- `PortOwner`: name of the service using the port, or `""` when free. -/
def portOwner (ss : List Service) (port : Nat) : String :=
  match ss.find? (fun s => s.port = port) with
  | some s => s.name
  | none => ""

/-! ### Port allocator (`internal/ports`, `Next` and `Request`) -/

/-- The scan loop of `Allocator.Next`: the first port at or after `port`
that is below `re` and not in the used set.  The fuel argument bounds the
iteration count structurally; callers pass the full range width, which the
loop's own `port < re` exit makes sufficient. -/
def nextLoop (used : List Nat) (re : Nat) : Nat → Nat → Option Nat
  | _, 0 => none
  | port, fuel + 1 =>
    if port < re then
      if used.contains port then nextLoop used re (port + 1) fuel
      else some port
    else none

/-- `Allocator.Next` over the store's current used-port view; `none` models
the range-exhausted error. -/
def portsNext (rs re : Nat) (used : List Nat) : Option Nat :=
  nextLoop used re rs (re - rs)

/-- Errors of `Allocator.Request`. -/
inductive PortErr where
  | outOfRange (port : Nat)
  | inUse (port : Nat) (owner : String)
deriving Repr, DecidableEq

/-- `Allocator.Request`: validates a specific port; `none` means available. -/
def portsRequest (rs re : Nat) (ss : List Service) (port : Nat) :
    Option PortErr :=
  if port < rs ∨ re ≤ port then some (.outOfRange port)
  else
    let owner := portOwner ss port
    if owner = "" then none else some (.inUse port owner)

/-! ### Name validation (`internal/db/manager.go`, `ValidateServiceName`)
and route-type inference (`internal/nginx/manager.go`, `InferRouteType`) -/

/-- A character matched by `[a-zA-Z0-9]`. -/
def isNameHeadChar (c : Char) : Bool := c.isAlphanum

/-- A character matched by `[a-zA-Z0-9_-]`. -/
def isNameTailChar (c : Char) : Bool := c.isAlphanum || c = '_' || c = '-'

/-- `ValidateServiceName`: the regex `^[a-zA-Z0-9][a-zA-Z0-9_-]*$`. -/
def validServiceName (name : String) : Bool :=
  match name.data with
  | [] => false
  | c :: rest => isNameHeadChar c && rest.all isNameTailChar

/-- `strings.HasPrefix(value, "/")`: the value's first character is a
slash. -/
def startsWithSlash (value : String) : Bool :=
  match value.data with
  | [] => false
  | c :: _ => c = '/'

/-- `InferRouteType`: `"path"` for a leading slash, otherwise `"subdomain"`
(a dotted value and the dot-less default both yield `"subdomain"`). -/
def inferRouteType (value : String) : String :=
  if startsWithSlash value then "path"
  else if value.data.contains '.' then "subdomain"
  else "subdomain"

/-! ### Symlink helpers (`updateSymlink` in orchestrator.go and the symlink
written by `DownloadAsset` in the github client) -/

/-- Point the service's current symlink at the given version. -/
def setSymlink (ls : List (String × String)) (n v : String) :
    List (String × String) :=
  (n, v) :: ls.filter (fun p => ¬ p.1 = n)

/-- Current symlink target of a service, if any. -/
def lookupSymlink (ls : List (String × String)) (n : String) : Option String :=
  (ls.find? (fun p => p.1 = n)).map (fun p => p.2)

/-! ### Orchestrator — Deploy (`internal/orchestrator/orchestrator.go`) -/

/-- Deploy request (`DeployRequest`). -/
structure DeployRequest where
  repo : String
  name : String
  version : String
  port : Nat
  route : String
  routeType : String
  extraEnv : List (String × String)
  noDB : Bool
  configFile : Bool
  owner : String
deriving Repr, DecidableEq

/-- Deploy result (`DeployResult`). -/
structure DeployResult where
  name : String
  version : String
  port : Nat
  route : String
  routeType : String
  dbName : String
  nginxSkip : Bool
  nginxWarn : String
deriving Repr, DecidableEq

/-- The step at which a deploy failed. -/
inductive StepErr where
  | invalidName (name : String)
  | nameExists (name : String)
  | resolveFailed
  | portExhausted
  | portOutOfRange (port : Nat)
  | portInUse (port : Nat) (owner : String)
  | fetchFailed
  | createDb
  | createEnvDir
  | writeEnv
  | createUser
  | writeUnit
  | daemonReload
  | enableUnit
  | startUnit
  | recordState
deriving Repr, DecidableEq

/-- A failed deploy's report: the original step error plus the collected
compensation failures (`rollback issues (may need manual cleanup)`),
mirroring the wrapped error built at orchestrator.go:161-164. -/
structure DeployFailure where
  original : StepErr
  issues : List String
deriving Repr, DecidableEq

/-- The last `/`-separated segment of a string, i.e.
`parts[len(parts)-1]` of `strings.Split(repo, "/")`. -/
def lastSegmentAux : List Char → List Char → List Char
  | [], cur => cur.reverse
  | c :: rest, cur =>
    if c = '/' then lastSegmentAux rest [] else lastSegmentAux rest (c :: cur)

/-- The repo reference's last path segment. -/
def lastSegment (repo : String) : String :=
  String.mk (lastSegmentAux repo.data [])

/-- Service name derivation: the repo's last path segment when no explicit
name is given (orchestrator.go:83-87). -/
def deployName (req : DeployRequest) : String :=
  if req.name = "" then lastSegment req.repo else req.name

/-- Route-type inference as done by Deploy (orchestrator.go:128-131). -/
def deployRouteType (req : DeployRequest) : String :=
  if req.routeType = "" ∧ ¬ req.route = "" then inferRouteType req.route
  else req.routeType

/-- Port resolution (orchestrator.go:114-125): auto-assign through the
allocator when the requested port is 0, otherwise validate the explicit
port. -/
def resolvePort (rs re : Nat) (ss : List Service) (reqPort : Nat) :
    Except StepErr Nat :=
  if reqPort = 0 then
    match portsNext rs re (usedPorts ss) with
    | some p => .ok p
    | none => .error .portExhausted
  else
    match portsRequest rs re ss reqPort with
    | some (.outOfRange p) => .error (.portOutOfRange p)
    | some (.inUse p o) => .error (.portInUse p o)
    | none => .ok reqPort

/-- One compensation of the deploy rollback, the `switch step` of the
`rollback` closure (orchestrator.go:141-156).  Returns the compensation's
error, if any, and the world after the attempt.  Calls whose errors the Go
code ignores (symlink removal, stop/disable/remove-unit/daemon-reload)
always apply; the observed call of each arm is governed by its oracle flag
and leaves its resource in place on failure. -/
def compensate (eff : Eff) (name version : String) (w : World) :
    String → Option String × World
  | "binary" =>
      let w1 := { w with symlinks := w.symlinks.filter (fun p => ¬ p.1 = name) }
      if eff.rbBinaryOk then
        (none, { w1 with
          artifacts := w1.artifacts.filter (fun p => ¬ p = (name, version)) })
      else (some "rollback binary", w1)
  | "database" =>
      if eff.dropDbOk then
        (none, { w with databases := w.databases.filter (fun n => ¬ n = name) })
      else (some "rollback database", w)
  | "envfile" =>
      if eff.rbEnvOk then
        (none, { w with
          envDirs := w.envDirs.filter (fun n => ¬ n = name),
          envFiles := w.envFiles.filter (fun n => ¬ n = name) })
      else (some "rollback envfile", w)
  | "systemd" =>
      let w1 := { w with
        running := w.running.filter (fun n => ¬ n = name),
        enabled := w.enabled.filter (fun n => ¬ n = name),
        units := w.units.filter (fun n => ¬ n = name) }
      if eff.rbUserOk then
        (none, { w1 with users := w1.users.filter (fun n => ¬ n = name) })
      else (some "rollback systemd", w1)
  | "nginx" =>
      if eff.rbNginxOk then
        (none, { w with
          nginxConfigs := w.nginxConfigs.filter (fun n => ¬ n = name) })
      else (some "rollback nginx", w)
  | _ => (none, w)

/-- The compensation failure message a step contributes, independent of the
world it runs against. -/
def compFailMsg (eff : Eff) : String → Option String
  | "binary" => if eff.rbBinaryOk then none else some "rollback binary"
  | "database" => if eff.dropDbOk then none else some "rollback database"
  | "envfile" => if eff.rbEnvOk then none else some "rollback envfile"
  | "systemd" => if eff.rbUserOk then none else some "rollback systemd"
  | "nginx" => if eff.rbNginxOk then none else some "rollback nginx"
  | _ => none

/-- Run the compensations for the given step list in order, collecting the
attempted steps, the failure messages, and the final world.  The caller
passes the journal reversed, matching the downward loop at
orchestrator.go:138-160. -/
def runComps (eff : Eff) (name version : String) :
    List String → World → List String × List String × World
  | [], w => ([], [], w)
  | step :: rest, w =>
      let r1 := compensate eff name version w step
      let r2 := runComps eff name version rest r1.2
      (step :: r2.1,
       (match r1.1 with
        | some m => m :: r2.2.1
        | none => r2.2.1),
       r2.2.2)

/-- The `rollback` closure of Deploy: undo the journaled steps in reverse
completion order and report the original error together with all collected
compensation failures. -/
def rollbackNow (eff : Eff) (name version : String) (journal : List String)
    (w : World) (orig : StepErr) : DeployFailure × World :=
  let r := runComps eff name version journal.reverse w
  (⟨orig, r.2.1⟩, r.2.2)

/-- Return path of a failing deploy step: run the rollback and surface its
report as the flow's error. -/
def failRB (eff : Eff) (name version : String) (journal : List String)
    (w : World) (orig : StepErr) : Except DeployFailure DeployResult × World :=
  let r := rollbackNow eff name version journal w orig
  (.error r.1, r.2)

/-- The Service record Deploy persists (orchestrator.go:264-280).  Note the
route fields come from the request even when route activation failed. -/
def mkDeployService (req : DeployRequest) (name version dbName : String)
    (port now : Nat) : Service :=
  { name := name
    repo := req.repo
    version := version
    prevVersion := ""
    port := port
    routeType := deployRouteType req
    routeValue := req.route
    dbName := dbName
    dbUser := dbName
    extraEnv := req.extraEnv
    deployedAt := now
    updatedAt := now }

/-- Step 6 of Deploy (orchestrator.go:263-293): persist the Service record,
rolling back all journaled steps when the insert fails, then append
history and return the result. -/
def recordState (eff : Eff) (req : DeployRequest)
    (name version dbName : String) (port now : Nat) (res : DeployResult)
    (journal : List String) (w : World) :
    Except DeployFailure DeployResult × World :=
  let svc := mkDeployService req name version dbName port now
  match insertService eff.insertFault w.services svc with
  | none =>
      failRB eff name version journal w .recordState
  | some ss =>
      let entry : HistoryEntry :=
        { service := name, action := "deploy", version := version,
          timestamp := now, detail := [("port", toString port)] }
      (.ok res, { w with services := ss, history := w.history ++ [entry] })

/-- `Orchestrator.Deploy` (orchestrator.go:81-294): the full deploy flow
with rollback on failure.  `rs`/`re` are the configured port range and
`now` the current Unix time.  Secrets-file contents are not tracked, only
the file's existence (its entries feed no later decision). -/
def deploy (rs re : Nat) (eff : Eff) (req : DeployRequest) (w : World)
    (now : Nat) : Except DeployFailure DeployResult × World :=
  let name := deployName req
  if ¬ validServiceName name then (.error ⟨.invalidName name, []⟩, w)
  else if (getService w.services name).isSome then
    (.error ⟨.nameExists name, []⟩, w)
  else
    match eff.resolved with
    | none => (.error ⟨.resolveFailed, []⟩, w)
    | some version =>
      match resolvePort rs re w.services req.port with
      | .error e => (.error ⟨e, []⟩, w)
      | .ok port =>
        -- Step 1: fetch binary; DownloadAsset lands the versioned artifact
        -- and repoints the current symlink (github client part_010:116-146).
        if ¬ eff.downloadOk then (.error ⟨.fetchFailed, []⟩, w)
        else
          let w1 := { w with
            artifacts := w.artifacts ++ [(name, version)],
            symlinks := setSymlink w.symlinks name version }
          let j1 := ["binary"]
          -- Step 2: create database (unless noDB)
          if ¬ req.noDB ∧ ¬ eff.createDbOk then
            failRB eff name version j1 w1 .createDb
          else
            let w2 :=
              if req.noDB then w1
              else { w1 with databases := w1.databases ++ [name] }
            let j2 := if req.noDB then j1 else j1 ++ ["database"]
            let dbName := if req.noDB then "" else "gc_" ++ name
            -- Step 3: write env/config file
            if ¬ eff.mkdirOk then
              failRB eff name version j2 w2 .createEnvDir
            else
              let w3 := { w2 with envDirs := w2.envDirs ++ [name] }
              if ¬ eff.writeEnvOk then
                failRB eff name version j2 w3 .writeEnv
              else
                let w4 := { w3 with envFiles := w3.envFiles ++ [name] }
                let j3 := j2 ++ ["envfile"]
                -- Step 4: account, unit, daemon-reload, enable, start;
                -- journaled as one "systemd" step only after start succeeds
                if ¬ eff.createUserOk then
                  failRB eff name version j3 w4 .createUser
                else
                  let w5 := { w4 with users := w4.users ++ [name] }
                  if ¬ eff.writeUnitOk then
                    failRB eff name version j3 w5 .writeUnit
                  else
                    let w6 := { w5 with units := w5.units ++ [name] }
                    if ¬ eff.daemonReloadOk then
                      failRB eff name version j3 w6 .daemonReload
                    else if ¬ eff.enableOk then
                      failRB eff name version j3 w6 .enableUnit
                    else
                      let w7 := { w6 with enabled := w6.enabled ++ [name] }
                      if ¬ eff.startOk then
                        failRB eff name version j3 w7 .startUnit
                      else
                        let w8 := { w7 with running := w7.running ++ [name] }
                        let j4 := j3 ++ ["systemd"]
                        -- Step 5: nginx config, non-fatal
                        if req.route = "" then
                          recordState eff req name version dbName port now
                            { name := name, version := version, port := port,
                              route := "", routeType := "", dbName := dbName,
                              nginxSkip := true, nginxWarn := "" } j4 w8
                        else if eff.nginxWriteOk then
                          let w9 := { w8 with
                            nginxConfigs := w8.nginxConfigs ++ [name] }
                          recordState eff req name version dbName port now
                            { name := name, version := version, port := port,
                              route := req.route,
                              routeType := deployRouteType req,
                              dbName := dbName,
                              nginxSkip := false, nginxWarn := "" }
                            (j4 ++ ["nginx"]) w9
                        else
                          recordState eff req name version dbName port now
                            { name := name, version := version, port := port,
                              route := "", routeType := "", dbName := dbName,
                              nginxSkip := true,
                              nginxWarn := eff.nginxErrMsg } j4 w8

/-! ### Orchestrator — Upgrade (orchestrator.go:313-415) -/

/-- Upgrade result (`UpgradeResult`). -/
structure UpgradeResult where
  name : String
  oldVersion : String
  newVersion : String
  rolledBack : Bool
  rollbackMsg : String
deriving Repr, DecidableEq

/-- Errors of the upgrade flow. -/
inductive UpErr where
  | notFound (name : String)
  | resolveFailed
  | alreadyAt (name version : String)
  | fetchFailed
  | stopFailed
  | symlinkFailed
  | updateFailed
deriving Repr, DecidableEq

/-- `Orchestrator.Upgrade`: fetch, stop, swap symlink, start, health check,
prune, update state.  A start or health-check failure repoints the symlink
to the old version and restarts (restart and repoint-back errors are
ignored by the code, so their effects always apply), returning a result
marked rolled back rather than an error. -/
def upgrade (eff : Eff) (name : String) (w : World) (now : Nat) :
    Except UpErr UpgradeResult × World :=
  match getService w.services name with
  | none => (.error (.notFound name), w)
  | some svc =>
    match eff.resolved with
    | none => (.error .resolveFailed, w)
    | some version =>
      if version = svc.version then (.error (.alreadyAt name version), w)
      else
        let oldVersion := svc.version
        -- Step 1: fetch new binary (lands artifact, repoints symlink)
        if ¬ eff.downloadOk then (.error .fetchFailed, w)
        else
          let w1 := { w with
            artifacts := w.artifacts ++ [(name, version)],
            symlinks := setSymlink w.symlinks name version }
          -- Step 2: stop service
          if ¬ eff.stopOk then (.error .stopFailed, w1)
          else
            let w2 := { w1 with
              running := w1.running.filter (fun n => ¬ n = name) }
            -- Step 3: update symlink; on failure best-effort repoint back
            -- and restart, both with errors ignored
            if ¬ eff.symlinkOk then
              let w3 := { w2 with
                symlinks := setSymlink w2.symlinks name oldVersion,
                running := w2.running ++ [name] }
              (.error .symlinkFailed, w3)
            else
              let w3 := { w2 with
                symlinks := setSymlink w2.symlinks name version }
              -- Step 4: start service; failure rolls back to old version
              if ¬ eff.startOk then
                let w4 := { w3 with
                  symlinks := setSymlink w3.symlinks name oldVersion,
                  running := w3.running ++ [name] }
                (.ok { name := name, oldVersion := oldVersion,
                       newVersion := version, rolledBack := true,
                       rollbackMsg := "service failed to start, rolled back" },
                 w4)
              else
                let w4 := { w3 with running := w3.running ++ [name] }
                -- Step 5: health check; failure stops, repoints, restarts
                if ¬ eff.healthOk then
                  let w5 := { w4 with
                    running := w4.running.filter (fun n => ¬ n = name) }
                  let w6 := { w5 with
                    symlinks := setSymlink w5.symlinks name oldVersion,
                    running := w5.running ++ [name] }
                  (.ok { name := name, oldVersion := oldVersion,
                         newVersion := version, rolledBack := true,
                         rollbackMsg := "health check failed, rolled back" },
                   w6)
                else
                  -- Step 6: prune versions, keeping current and previous
                  let w5 := { w4 with
                    artifacts := w4.artifacts.filter
                      (fun p => ¬ p.1 = name ∨ p.2 = version ∨
                                p.2 = oldVersion) }
                  -- Step 7: update state
                  let svc2 := { svc with
                    prevVersion := oldVersion, version := version,
                    updatedAt := now }
                  match updateService w5.services svc2 with
                  | none => (.error .updateFailed, w5)
                  | some ss =>
                    let entry : HistoryEntry :=
                      { service := name, action := "upgrade",
                        version := version, timestamp := now,
                        detail := [("from", oldVersion)] }
                    (.ok { name := name, oldVersion := oldVersion,
                           newVersion := version, rolledBack := false,
                           rollbackMsg := "" },
                     { w5 with services := ss,
                               history := w5.history ++ [entry] })

/-! ### Orchestrator — Rollback (orchestrator.go:418-461) -/

/-- Errors of the rollback flow. -/
inductive RbErr where
  | notFound (name : String)
  | noPrevVersion (name : String)
  | stopFailed
  | symlinkFailed
  | startFailed
deriving Repr, DecidableEq

/-- `Orchestrator.Rollback`: stop, repoint symlink to the previous version,
start, swap the record's version fields (the store update's error is
ignored at orchestrator.go:451), append history.  Returns the version
rolled back to. -/
def rollbackFlow (eff : Eff) (name : String) (w : World) (now : Nat) :
    Except RbErr String × World :=
  match getService w.services name with
  | none => (.error (.notFound name), w)
  | some svc =>
    if svc.prevVersion = "" then (.error (.noPrevVersion name), w)
    else
      let prev := svc.prevVersion
      if ¬ eff.stopOk then (.error .stopFailed, w)
      else
        let w1 := { w with running := w.running.filter (fun n => ¬ n = name) }
        if ¬ eff.symlinkOk then
          -- best-effort restart, error ignored
          let w2 := { w1 with running := w1.running ++ [name] }
          (.error .symlinkFailed, w2)
        else
          let w2 := { w1 with symlinks := setSymlink w1.symlinks name prev }
          if ¬ eff.startOk then (.error .startFailed, w2)
          else
            let w3 := { w2 with running := w2.running ++ [name] }
            let svc2 := { svc with
              prevVersion := svc.version, version := prev, updatedAt := now }
            let ss := (updateService w3.services svc2).getD w3.services
            let entry : HistoryEntry :=
              { service := name, action := "rollback", version := prev,
                timestamp := now, detail := [] }
            (.ok prev,
             { w3 with services := ss, history := w3.history ++ [entry] })

/-! ### Orchestrator — Remove (orchestrator.go:474-524) -/

/-- Errors of the remove flow. -/
inductive RmErr where
  | notFound (name : String)
  | dropDbFailed
deriving Repr, DecidableEq

/-- `Orchestrator.Remove`: best-effort teardown of process, unit, account,
route, secrets and binaries (all those call errors are ignored by the
code, so their effects always apply), then the conditional database drop
whose failure is fatal and aborts before the record delete and the history
append. -/
def remove (eff : Eff) (name : String) (dropDB : Bool) (w : World)
    (now : Nat) : Option RmErr × World :=
  match getService w.services name with
  | none => (some (.notFound name), w)
  | some svc =>
    let w1 := { w with
      running := w.running.filter (fun n => ¬ n = name),
      enabled := w.enabled.filter (fun n => ¬ n = name),
      units := w.units.filter (fun n => ¬ n = name),
      users := w.users.filter (fun n => ¬ n = name) }
    let w2 :=
      if ¬ svc.routeValue = "" then
        { w1 with nginxConfigs := w1.nginxConfigs.filter (fun n => ¬ n = name) }
      else w1
    let w3 := { w2 with
      envDirs := w2.envDirs.filter (fun n => ¬ n = name),
      envFiles := w2.envFiles.filter (fun n => ¬ n = name),
      artifacts := w2.artifacts.filter (fun p => ¬ p.1 = name),
      symlinks := w2.symlinks.filter (fun p => ¬ p.1 = name) }
    if dropDB ∧ ¬ svc.dbName = "" ∧ ¬ eff.dropDbOk then
      (some .dropDbFailed, w3)
    else
      let w4 :=
        if dropDB ∧ ¬ svc.dbName = "" then
          { w3 with databases := w3.databases.filter (fun n => ¬ n = name) }
        else w3
      let entry : HistoryEntry :=
        { service := name, action := "remove", version := svc.version,
          timestamp := now, detail := [] }
      let ss := (deleteService w4.services name).getD w4.services
      (none, { w4 with history := w4.history ++ [entry], services := ss })

/-! ### Row-level state store (`internal/state/store.go`)

`InsertService` serializes the extra-environment map with `marshalJSON`
into a nullable text column; `scanService` reads it back.  The JSON
codec used by the Go code (`encoding/json` on `map[string]string`) is
modelled concretely: an object literal over the key-sorted entry list,
with quotes and backslashes escaped, together with a decoder that parses
that canonical output. -/

/-- The double-quote character. -/
def quoteC : Char := Char.ofNat 34

/-- The backslash character. -/
def bslashC : Char := Char.ofNat 92

/-- The opening curly bracket. -/
def lbraceC : Char := Char.ofNat 123

/-- The closing curly bracket. -/
def rbraceC : Char := Char.ofNat 125

/-- JSON string escaping of one character. -/
def escChar (c : Char) : List Char :=
  if c = quoteC ∨ c = bslashC then [bslashC, c] else [c]

/-- JSON string escaping of a character list. -/
def escBody : List Char → List Char
  | [] => []
  | c :: rest => escChar c ++ escBody rest

/-- A JSON string literal. -/
def encodeStr (s : List Char) : List Char :=
  quoteC :: (escBody s ++ [quoteC])

/-- One `"key":"value"` member. -/
def encodePair (kv : List Char × List Char) : List Char :=
  encodeStr kv.1 ++ ':' :: encodeStr kv.2

/-- Comma-separated members. -/
def encodeEntries : List (List Char × List Char) → List Char
  | [] => []
  | [kv] => encodePair kv
  | kv :: rest => encodePair kv ++ ',' :: encodeEntries rest

/-- A JSON object literal. -/
def encodeObj (m : List (List Char × List Char)) : List Char :=
  lbraceC :: (encodeEntries m ++ [rbraceC])

/-- Parse a string-literal body up to the closing quote, undoing escapes. -/
def parseBody : List Char → Option (List Char × List Char)
  | [] => none
  | c :: rest =>
    if c = quoteC then some ([], rest)
    else if c = bslashC then
      match rest with
      | [] => none
      | d :: rest2 =>
        match parseBody rest2 with
        | some p => some (d :: p.1, p.2)
        | none => none
    else
      match parseBody rest with
      | some p => some (c :: p.1, p.2)
      | none => none

/-- Parse a JSON string literal. -/
def parseString (l : List Char) : Option (List Char × List Char) :=
  match l with
  | [] => none
  | c :: rest => if c = quoteC then parseBody rest else none

/-- Parse one `"key":"value"` member. -/
def parsePair (l : List Char) :
    Option ((List Char × List Char) × List Char) :=
  match parseString l with
  | none => none
  | some kr =>
    match kr.2 with
    | [] => none
    | c :: rest2 =>
      if c = ':' then
        match parseString rest2 with
        | none => none
        | some vr => some ((kr.1, vr.1), vr.2)
      else none

/-- Parse one or more members followed by the closing bracket. -/
def parseEntries :
    Nat → List Char → Option (List (List Char × List Char) × List Char)
  | 0, _ => none
  | fuel + 1, l =>
    match parsePair l with
    | none => none
    | some kvr =>
      match kvr.2 with
      | [] => none
      | c :: rest2 =>
        if c = rbraceC then some ([kvr.1], rest2)
        else if c = ',' then
          match parseEntries fuel rest2 with
          | none => none
          | some er => some (kvr.1 :: er.1, er.2)
        else none

/-- Parse a complete JSON object of string pairs. -/
def decodeObj (l : List Char) : Option (List (List Char × List Char)) :=
  match l with
  | [] => none
  | c :: rest =>
    if c = lbraceC then
      match rest with
      | [] => none
      | d :: rest2 =>
        if d = rbraceC then (if rest2 = [] then some [] else none)
        else
          match parseEntries rest.length rest with
          | some er => if er.2 = [] then some er.1 else none
          | none => none
    else none

/-- JSON-encode an extra-environment entry list to the stored text. -/
def encodeExtraEnv (m : List (String × String)) : String :=
  String.mk (encodeObj (m.map (fun kv => (kv.1.data, kv.2.data))))

/-- Decode the stored text back to an entry list. -/
def decodeExtraEnv (s : String) : Option (List (String × String)) :=
  (decodeObj s.data).map
    (fun l => l.map (fun kv => (String.mk kv.1, String.mk kv.2)))

/-- `marshalJSON` (store.go:312-325): a nil or empty map becomes an invalid
`NullString` (stored as SQL NULL), anything else its JSON text. -/
def marshalJSON (m : List (String × String)) : Option String :=
  if m = [] then none else some (encodeExtraEnv m)

/-- `nullString` (store.go:327-332). -/
def nullString (s : String) : Option String :=
  if s = "" then none else some s

/-- A row of the `services` table, nullable columns as `Option`. -/
structure ServiceRow where
  name : String
  repo : String
  version : String
  prevVersion : Option String
  port : Nat
  routeType : String
  routeValue : String
  dbName : String
  dbUser : String
  extraEnv : Option String
  deployedAt : Nat
  updatedAt : Nat
deriving Repr, DecidableEq

/-- The row `InsertService` writes for a Service (store.go:80-97). -/
def rowOfService (svc : Service) : ServiceRow :=
  { name := svc.name
    repo := svc.repo
    version := svc.version
    prevVersion := nullString svc.prevVersion
    port := svc.port
    routeType := svc.routeType
    routeValue := svc.routeValue
    dbName := svc.dbName
    dbUser := svc.dbUser
    extraEnv := marshalJSON svc.extraEnv
    deployedAt := svc.deployedAt
    updatedAt := svc.updatedAt }

/-- `scanService` (store.go:253-280): rebuild a Service from a row; a NULL
or empty extra-env column yields the absent mapping, otherwise the JSON
text is decoded (`none` models the unmarshal error). -/
def scanService (row : ServiceRow) : Option Service :=
  let extra : Option (List (String × String)) :=
    match row.extraEnv with
    | none => some []
    | some s => if s = "" then some [] else decodeExtraEnv s
  match extra with
  | none => none
  | some m =>
    some
      { name := row.name
        repo := row.repo
        version := row.version
        prevVersion := (row.prevVersion).getD ""
        port := row.port
        routeType := row.routeType
        routeValue := row.routeValue
        dbName := row.dbName
        dbUser := row.dbUser
        extraEnv := m
        deployedAt := row.deployedAt
        updatedAt := row.updatedAt }

/-! ### Concrete fixtures for scenario runs -/

/-- A world with nothing provisioned and an empty store. -/
def emptyWorld : World :=
  { artifacts := [], symlinks := [], databases := [], envDirs := [],
    envFiles := [], users := [], units := [], enabled := [], running := [],
    nginxConfigs := [], services := [], history := [] }

/-- An oracle on which every external call succeeds and version resolution
yields `v1.0.0`. -/
def okEff : Eff :=
  { resolved := some "v1.0.0", downloadOk := true, createDbOk := true,
    dbPassword := "pw", mkdirOk := true, writeEnvOk := true,
    createUserOk := true, writeUnitOk := true, daemonReloadOk := true,
    enableOk := true, startOk := true, stopOk := true, symlinkOk := true,
    healthOk := true, nginxWriteOk := true, nginxErrMsg := "",
    insertFault := false, dropDbOk := true, rbBinaryOk := true,
    rbEnvOk := true, rbUserOk := true, rbNginxOk := true }

/-- The spec's deploy scenario request: `repo="owner/api"`,
`version="v1.0.0"`, `route="api.example.com"`, everything else default. -/
def reqApi : DeployRequest :=
  { repo := "owner/api", name := "", version := "v1.0.0", port := 0,
    route := "api.example.com", routeType := "", extraEnv := [],
    noDB := false, configFile := false, owner := "" }

/-- Oracle for a deploy where only the nginx write fails. -/
def c1eff : Eff := { okEff with nginxWriteOk := false,
                                nginxErrMsg := "nginx test failed" }

/-- Oracle for a deploy failing at `Enable`, with the binary-removal
compensation also failing. -/
def c2eff : Eff := { okEff with enableOk := false, rbBinaryOk := false }

/-- Oracle for a deploy failing at `Enable` with all compensations
succeeding. -/
def c2wEff : Eff := { okEff with enableOk := false }

/-- A deployed service on port 3000 at `v1.0.0` with previous version
`v0.9.0`. -/
def svcApi : Service :=
  { name := "api", repo := "owner/api", version := "v1.0.0",
    prevVersion := "v0.9.0", port := 3000, routeType := "subdomain",
    routeValue := "api.example.com", dbName := "gc_api", dbUser := "gc_api",
    extraEnv := [], deployedAt := 0, updatedAt := 0 }

/-- A world where `svcApi` is fully provisioned and recorded. -/
def worldApi : World :=
  { artifacts := [("api", "v1.0.0")], symlinks := [("api", "v1.0.0")],
    databases := ["api"], envDirs := ["api"], envFiles := ["api"],
    users := ["api"], units := ["api"], enabled := ["api"],
    running := ["api"], nginxConfigs := ["api"], services := [svcApi],
    history := [] }

/-- Oracle for an upgrade to `v1.1.0` whose health check fails. -/
def upEffC4 : Eff := { okEff with resolved := some "v1.1.0",
                                  healthOk := false }

/-- Oracle for a remove where the database drop fails. -/
def rmEffC5 : Eff := { okEff with dropDbOk := false }

/-- A service record carrying a non-empty extra-environment mapping. -/
def svcEnv : Service :=
  { svcApi with name := "envy", port := 3001,
                extraEnv := [("API_KEY", "k-1"), ("MODE", "prod")] }

/-- A service record with the empty extra-environment mapping. -/
def svcNoEnv : Service := { svcApi with name := "plain", port := 3002 }

end GC

namespace GC

/-! ## Supporting lemmas -/

/-- `getService` comes up empty exactly when no record carries the name. -/
theorem getService_eq_none (ss : List Service) (n : String) :
    getService ss n = none ↔ ∀ s ∈ ss, ¬ s.name = n := by
  simp [getService, List.find?_eq_none]

/-- A found record carries the queried name. -/
theorem getService_name (ss : List Service) (n : String) (svc : Service)
    (h : getService ss n = some svc) : svc.name = n := by
  have := List.find?_some h
  simpa using this

/-- Appending a matching record to a store with no record of that name
makes lookup find it. -/
theorem getService_append (ss : List Service) (svc : Service)
    (h : ∀ s ∈ ss, ¬ s.name = svc.name) :
    getService (ss ++ [svc]) svc.name = some svc := by
  induction ss with
  | nil => simp [getService, List.find?]
  | cons s rest ih =>
    have hs : ¬ s.name = svc.name := h s (by simp)
    have ih' := ih (fun x hx => h x (by simp [hx]))
    simp only [getService, List.cons_append, List.find?] at *
    simp [hs, ih']

/-- The scan loop returns the lowest in-range unused port. -/
theorem nextLoop_spec (used : List Nat) (re : Nat) :
    ∀ fuel port p, nextLoop used re port fuel = some p →
      port ≤ p ∧ p < re ∧ used.contains p = false ∧
        ∀ q, port ≤ q → q < p → used.contains q = true := by
  intro fuel
  induction fuel with
  | zero => intro port p h; simp [nextLoop] at h
  | succ fuel ih =>
    intro port p h
    simp only [nextLoop] at h
    split at h
    · rename_i hlt
      split at h
      · rename_i hc
        obtain ⟨h1, h2, h3, h4⟩ := ih (port + 1) p h
        refine ⟨by omega, h2, h3, ?_⟩
        intro q hq1 hq2
        rcases Nat.eq_or_lt_of_le hq1 with heq | hlt2
        · exact heq ▸ hc
        · exact h4 q (by omega) hq2
      · rename_i hc
        injection h with h'
        subst h'
        refine ⟨Nat.le_refl _, hlt, by simpa using hc, ?_⟩
        intro q hq1 hq2; omega
    · exact absurd h (by simp)

/-! ## Claims -/

/-- C10: `InferRouteType` classifies a value starting with `/` as `"path"`
(even if it also contains a dot), and every other value — dotted or not —
as `"subdomain"`; a value with neither a leading slash nor a dot defaults
to `"subdomain"` rather than being rejected. -/
theorem inferRouteType_classification (value : String) :
    inferRouteType value =
      if startsWithSlash value then "path" else "subdomain" := by
  unfold inferRouteType
  by_cases h : startsWithSlash value = true <;> simp [h]

/-- C8: the port allocator returns the lowest port of `[rs, re)` not in the
store's used-port view, deterministically (it is a pure function of that
view); in particular the spec's deploy scenario against an empty store with
range 3000-4000 assigns port 3000 (with route type `"subdomain"` and the
derived database name). -/
theorem ports_next_lowest_free :
    (∀ rs re used p, portsNext rs re used = some p →
      rs ≤ p ∧ p < re ∧ used.contains p = false ∧
        ∀ q, rs ≤ q → q < p → used.contains q = true) ∧
    (deploy 3000 4000 okEff reqApi emptyWorld 0).1 =
      .ok { name := "api", version := "v1.0.0", port := 3000,
            route := "api.example.com", routeType := "subdomain",
            dbName := "gc_api", nginxSkip := false, nginxWarn := "" } := by
  constructor
  · intro rs re used p h
    exact nextLoop_spec used re (re - rs) rs p h
  · rfl

/-- C8 witness: the general part of `ports_next_lowest_free` applied to the
used set `[3000, 3001]`, where the allocator must return 3002. -/
theorem ports_next_lowest_free_witness :
    3000 ≤ 3002 ∧ 3002 < 4000 ∧ [3000, 3001].contains 3002 = false :=
  ⟨(ports_next_lowest_free.1 3000 4000 [3000, 3001] 3002 (by decide)).1,
   (ports_next_lowest_free.1 3000 4000 [3000, 3001] 3002 (by decide)).2.1,
   (ports_next_lowest_free.1 3000 4000 [3000, 3001] 3002 (by decide)).2.2.1⟩

/-! ### JSON codec round trip (for C9) -/

theorem bslashC_ne_quoteC : ¬ bslashC = quoteC := by decide

/-- Parsing an escaped body up to the closing quote recovers the body. -/
theorem parseBody_escBody (s r : List Char) :
    parseBody (escBody s ++ quoteC :: r) = some (s, r) := by
  induction s with
  | nil =>
    simp only [escBody, List.nil_append]
    rw [parseBody.eq_def]
    simp
  | cons c rest ih =>
    by_cases hc : c = quoteC ∨ c = bslashC
    · have he : escChar c = [bslashC, c] := by simp [escChar, hc]
      simp only [escBody, he, List.cons_append, List.append_assoc]
      rw [parseBody.eq_def]
      simp only [bslashC_ne_quoteC, if_neg, if_pos, ite_false, ite_true]
      simp [bslashC_ne_quoteC, ih]
    · push_neg at hc
      have he : escChar c = [c] := by simp [escChar, hc.1, hc.2]
      simp only [escBody, he, List.cons_append]
      rw [parseBody.eq_def]
      simp [hc.1, hc.2, ih]

/-- Parsing an encoded string literal recovers the string. -/
theorem parseString_encodeStr (s r : List Char) :
    parseString (encodeStr s ++ r) = some (s, r) := by
  simp [encodeStr, parseString, List.append_assoc, List.cons_append,
        parseBody_escBody]

/-- Parsing an encoded member recovers the pair. -/
theorem parsePair_encodePair (kv : List Char × List Char) (r : List Char) :
    parsePair (encodePair kv ++ r) = some (kv, r) := by
  simp [encodePair, parsePair, List.append_assoc, List.cons_append,
        parseString_encodeStr]

theorem comma_ne_rbraceC : ¬ (',' : Char) = rbraceC := by decide

/-- Parsing encoded members up to the closing bracket recovers the list. -/
theorem parseEntries_encodeEntries (m : List (List Char × List Char)) :
    ∀ (r : List Char) (fuel : Nat), ¬ m = [] → m.length ≤ fuel →
      parseEntries fuel (encodeEntries m ++ rbraceC :: r) = some (m, r) := by
  induction m with
  | nil => intro r fuel h _; exact absurd rfl h
  | cons kv m' ih =>
    intro r fuel _ hf
    cases fuel with
    | zero => simp at hf
    | succ fuel =>
      cases m' with
      | nil =>
        simp [encodeEntries, parseEntries, parsePair_encodePair]
      | cons kv2 m'' =>
        have hih := ih r fuel (by simp) (by simp at hf ⊢; omega)
        simp [encodeEntries, parseEntries, List.append_assoc,
              List.cons_append, parsePair_encodePair, comma_ne_rbraceC, hih]

/-- Encoded members are at least as long as the member list. -/
theorem length_le_encodeEntries (m : List (List Char × List Char)) :
    m.length ≤ (encodeEntries m).length := by
  induction m with
  | nil => simp [encodeEntries]
  | cons kv m' ih =>
    cases m' with
    | nil => simp [encodeEntries, encodePair, encodeStr]
    | cons kv2 m'' =>
      simp only [encodeEntries, List.length_append, List.length_cons] at *
      simp [encodePair, encodeStr]
      omega

theorem quoteC_ne_rbraceC : ¬ quoteC = rbraceC := by decide

/-- Decoding an encoded object recovers the entry list. -/
theorem decodeObj_encodeObj (m : List (List Char × List Char)) :
    decodeObj (encodeObj m) = some m := by
  cases m with
  | nil => rfl
  | cons kv m' =>
    have hhead : ∃ t, encodeEntries (kv :: m') = quoteC :: t := by
      cases m' with
      | nil =>
        refine ⟨escBody kv.1 ++ quoteC :: ':' :: quoteC ::
          (escBody kv.2 ++ [quoteC]), ?_⟩
        simp [encodeEntries, encodePair, encodeStr, List.cons_append,
              List.append_assoc]
      | cons kv2 m'' =>
        refine ⟨escBody kv.1 ++ quoteC :: ':' :: quoteC ::
          (escBody kv.2 ++ quoteC :: ',' :: encodeEntries (kv2 :: m'')), ?_⟩
        simp [encodeEntries, encodePair, encodeStr, List.cons_append,
              List.append_assoc]
    obtain ⟨t, ht⟩ := hhead
    have hlen : (kv :: m').length ≤ t.length + 2 := by
      have h1 := length_le_encodeEntries (kv :: m')
      rw [ht] at h1
      simp only [List.length_cons] at h1 ⊢
      omega
    have hparse := parseEntries_encodeEntries (kv :: m') [] (t.length + 2)
      (by simp) hlen
    rw [ht] at hparse
    simp only [List.cons_append] at hparse
    simp only [encodeObj, decodeObj, ht, List.cons_append]
    simp [quoteC_ne_rbraceC, hparse]

/-- Decoding an encoded extra-environment mapping recovers it. -/
theorem decodeExtraEnv_encodeExtraEnv (m : List (String × String)) :
    decodeExtraEnv (encodeExtraEnv m) = some m := by
  have hfun : ((fun kv : List Char × List Char =>
      (String.mk kv.1, String.mk kv.2)) ∘
      (fun kv : String × String => (kv.1.data, kv.2.data))) = id := by
    funext kv; rfl
  simp [decodeExtraEnv, encodeExtraEnv, decodeObj_encodeObj,
        List.map_map, hfun]

/-- The encoded mapping is never the empty string. -/
theorem encodeExtraEnv_ne_empty (m : List (String × String)) :
    ¬ encodeExtraEnv m = "" := by
  intro h
  have : (encodeExtraEnv m).data = ("" : String).data := by rw [h]
  simp [encodeExtraEnv, encodeObj] at this

/-- C9: a Service record written to the store and read back yields an equal
extra-environment mapping (`scanService` inverts the row built by
`InsertService`), and a record written with the empty mapping is stored
with the extra-env column NULL — absent, not an empty blob. -/
theorem store_service_roundtrip :
    (∀ svc : Service, scanService (rowOfService svc) = some svc) ∧
    (∀ svc : Service, svc.extraEnv = [] →
      (rowOfService svc).extraEnv = none) := by
  constructor
  · intro svc
    obtain ⟨n, rp, vv, pv, pt, rt, rv, dn, du, ee, da, ua⟩ := svc
    unfold scanService rowOfService marshalJSON nullString
    by_cases he : ee = []
    · by_cases hp : pv = "" <;>
        simp [he, hp]
    · have hne := encodeExtraEnv_ne_empty ee
      by_cases hp : pv = "" <;>
        simp [he, hp, hne, decodeExtraEnv_encodeExtraEnv]
  · intro svc he
    simp [rowOfService, marshalJSON, he]

/-- C9 witness: the round trip evaluated on a record with a non-empty
mapping and, for the second part, on a record with the empty mapping. -/
theorem store_service_roundtrip_witness :
    scanService (rowOfService svcEnv) = some svcEnv ∧
    (rowOfService svcNoEnv).extraEnv = none :=
  ⟨store_service_roundtrip.1 svcEnv,
   store_service_roundtrip.2 svcNoEnv (by decide)⟩

/-! ### Rollback protocol (for C3) -/

/-- A compensation's failure message depends only on the oracle and the
step, never on the world it runs against or on earlier outcomes. -/
theorem compensate_fst (eff : Eff) (n v : String) (w : World) (s : String) :
    (compensate eff n v w s).1 = compFailMsg eff s := by
  unfold compensate compFailMsg
  split <;> first
    | (split <;> rfl)
    | rfl

/-- Compensations never touch the state store's tables. -/
theorem compensate_store (eff : Eff) (n v : String) (w : World) (s : String) :
    (compensate eff n v w s).2.services = w.services ∧
    (compensate eff n v w s).2.history = w.history := by
  unfold compensate
  split <;> first
    | (split <;> exact ⟨rfl, rfl⟩)
    | exact ⟨rfl, rfl⟩

/-- Running the compensations attempts every step in the given order,
collects exactly the per-step failure messages, and leaves the store's
tables untouched. -/
theorem runComps_spec (eff : Eff) (n v : String) :
    ∀ (l : List String) (w : World),
      (runComps eff n v l w).1 = l ∧
      (runComps eff n v l w).2.1 = l.filterMap (compFailMsg eff) ∧
      (runComps eff n v l w).2.2.services = w.services ∧
      (runComps eff n v l w).2.2.history = w.history := by
  intro l
  induction l with
  | nil => intro w; simp [runComps]
  | cons step rest ih =>
    intro w
    have hw := compensate_store eff n v w step
    have ihw := ih (compensate eff n v w step).2
    have hf := compensate_fst eff n v w step
    simp only [runComps]
    cases hm : compFailMsg eff step <;>
      simp [List.filterMap_cons, hm, hf, ihw.1, ihw.2.1, ihw.2.2.1,
            ihw.2.2.2, hw.1, hw.2]

/-- C3: whenever deploy rollback runs, the compensations of the journaled
steps execute in strict reverse order of the steps' completion; every
compensation is attempted even if an earlier one fails (each step's outcome
depends only on its own oracle flag, by `compFailMsg`); and all
compensation failures are collected and reported in the returned failure
alongside the original error. -/
theorem deploy_rollback_protocol (eff : Eff) (name version : String)
    (journal : List String) (w : World) (orig : StepErr) :
    (runComps eff name version journal.reverse w).1 = journal.reverse ∧
    (rollbackNow eff name version journal w orig).1.original = orig ∧
    (rollbackNow eff name version journal w orig).1.issues =
      journal.reverse.filterMap (compFailMsg eff) := by
  have h := runComps_spec eff name version journal.reverse w
  exact ⟨h.1, rfl, h.2.1⟩

/-- C7: an upgrade whose version resolution yields the already-installed
version reports the already-at-version outcome and performs no action at
all — the world, including store, symlinks, artifacts and processes, is
returned unchanged. -/
theorem upgrade_no_change (eff : Eff) (name : String) (w : World)
    (svc : Service) (now : Nat)
    (hget : getService w.services name = some svc)
    (hres : eff.resolved = some svc.version) :
    upgrade eff name w now = (.error (.alreadyAt name svc.version), w) := by
  unfold upgrade
  rw [hget, hres]
  simp

/-- C7 witness: upgrading `svcApi` to its installed version `v1.0.0`
changes nothing. -/
theorem upgrade_no_change_witness :
    upgrade okEff "api" worldApi 7 =
      (.error (.alreadyAt "api" "v1.0.0"), worldApi) :=
  upgrade_no_change okEff "api" worldApi svcApi 7 (by decide) (by decide)

/-! ### Store-update lemmas (for C6) -/

/-- Looking a name up after the update-map rewrite finds the new record,
provided some record carried the name. -/
theorem getService_map_update (n : String) (svc2 : Service)
    (hn2 : svc2.name = n) :
    ∀ ss : List Service, (∃ s ∈ ss, s.name = n) →
      getService (ss.map (fun s => if s.name = svc2.name then svc2 else s)) n
        = some svc2 := by
  intro ss
  induction ss with
  | nil =>
    rintro ⟨s, hs, _⟩
    simp at hs
  | cons s rest ih =>
    rintro ⟨x, hx, hxn⟩
    by_cases hs : s.name = svc2.name
    · simp [getService, List.find?, hs, hn2]
    · have hsn : ¬ s.name = n := fun h => hs (by rw [h, hn2])
      have hxrest : x ∈ rest := by
        rcases List.mem_cons.mp hx with h | h
        · exact absurd (h ▸ hxn) hsn
        · exact h
      have ihr := ih ⟨x, hxrest, hxn⟩
      simp only [List.map_cons, getService, List.find?, if_neg hs] at *
      simp [hsn, ihr]

/-- Updating an existing record succeeds and lookup then yields the new
record. -/
theorem updateService_getService (ss : List Service) (n : String)
    (svc svc2 : Service) (hget : getService ss n = some svc)
    (hn2 : svc2.name = n) :
    updateService ss svc2 =
      some (ss.map (fun s => if s.name = svc2.name then svc2 else s)) ∧
    getService (ss.map (fun s => if s.name = svc2.name then svc2 else s)) n
      = some svc2 := by
  have hmem : svc ∈ ss := List.mem_of_find?_eq_some hget
  have hname : svc.name = n := getService_name ss n svc hget
  have hany : ss.any (fun s => s.name = svc2.name) = true := by
    simp only [List.any_eq_true]
    exact ⟨svc, hmem, by simp [hname, hn2]⟩
  exact ⟨by simp [updateService, hany],
         getService_map_update n svc2 hn2 ss ⟨svc, hmem, hname⟩⟩

/-- A successful rollback run returns the previous version and stores the
swapped record. -/
theorem rollbackFlow_success (eff : Eff) (name : String) (w : World)
    (svc : Service) (now : Nat)
    (hget : getService w.services name = some svc)
    (hprev : ¬ svc.prevVersion = "")
    (hstop : eff.stopOk = true) (hsym : eff.symlinkOk = true)
    (hstart : eff.startOk = true) :
    (rollbackFlow eff name w now).1 = .ok svc.prevVersion ∧
    getService (rollbackFlow eff name w now).2.services name =
      some { svc with prevVersion := svc.version,
                      version := svc.prevVersion, updatedAt := now } := by
  have hname := getService_name _ _ _ hget
  obtain ⟨hupd, hget2⟩ := updateService_getService w.services name svc
    { svc with prevVersion := svc.version, version := svc.prevVersion,
               updatedAt := now }
    hget (by simp [hname])
  unfold rollbackFlow
  rw [hget]
  simp [hprev, hstop, hsym, hstart, hupd, hget2]

/-- C6: for a service whose previous-version field is non-empty, a
successful Rollback (stop, symlink repoint and start all succeed) swaps the
stored record's version and previous-version fields; consequently two
successive successful rollbacks restore the original
(version, previous-version) pair. -/
theorem rollback_swaps_versions (eff : Eff) (name : String) (w : World)
    (svc : Service) (now now2 : Nat)
    (hget : getService w.services name = some svc)
    (hprev : ¬ svc.prevVersion = "")
    (hstop : eff.stopOk = true) (hsym : eff.symlinkOk = true)
    (hstart : eff.startOk = true) :
    (rollbackFlow eff name w now).1 = .ok svc.prevVersion ∧
    getService (rollbackFlow eff name w now).2.services name =
      some { svc with prevVersion := svc.version,
                      version := svc.prevVersion, updatedAt := now } ∧
    (¬ svc.version = "" →
      ∃ svc2, getService
          (rollbackFlow eff name
            (rollbackFlow eff name w now).2 now2).2.services name =
          some svc2 ∧
        svc2.version = svc.version ∧
        svc2.prevVersion = svc.prevVersion) := by
  obtain ⟨hres1, hget1⟩ := rollbackFlow_success eff name w svc now
    hget hprev hstop hsym hstart
  refine ⟨hres1, hget1, ?_⟩
  intro hver
  obtain ⟨hres2, hget2⟩ := rollbackFlow_success eff name
    (rollbackFlow eff name w now).2
    { svc with prevVersion := svc.version, version := svc.prevVersion,
               updatedAt := now }
    now2 hget1 (by simpa using hver) hstop hsym hstart
  exact ⟨_, hget2, by simp, by simp⟩

/-- C6 witness: two rollbacks of `svcApi` (v1.0.0 over v0.9.0) restore the
original version pair. -/
theorem rollback_swaps_versions_witness :
    (rollbackFlow okEff "api" worldApi 1).1 = .ok "v0.9.0" ∧
    getService (rollbackFlow okEff "api" worldApi 1).2.services "api" =
      some { svcApi with prevVersion := "v1.0.0", version := "v0.9.0",
                         updatedAt := 1 } ∧
    (∃ svc2, getService
        (rollbackFlow okEff "api"
          (rollbackFlow okEff "api" worldApi 1).2 2).2.services "api" =
        some svc2 ∧
      svc2.version = svcApi.version ∧
      svc2.prevVersion = svcApi.prevVersion) :=
  ⟨(rollback_swaps_versions okEff "api" worldApi svcApi 1 2
      (by decide) (by decide) (by decide) (by decide) (by decide)).1,
   (rollback_swaps_versions okEff "api" worldApi svcApi 1 2
      (by decide) (by decide) (by decide) (by decide) (by decide)).2.1,
   (rollback_swaps_versions okEff "api" worldApi svcApi 1 2
      (by decide) (by decide) (by decide) (by decide) (by decide)).2.2
     (by decide)⟩

/-- Setting a service's symlink makes the lookup return that target. -/
theorem lookupSymlink_set (ls : List (String × String)) (n v : String) :
    lookupSymlink (setSymlink ls n v) n = some v := by
  simp [lookupSymlink, setSymlink, List.find?]

/-- C4: an upgrade in which the new version's process fails to start, or
the bounded health check fails, repoints the symlink to the previous
version, restarts the process (the restart's effect always applies, its
error being ignored by the code), and returns a result marked rolled back
with a non-empty reason; the stored Service record still reports the
pre-upgrade version. -/
theorem upgrade_rolled_back (eff : Eff) (name : String) (w : World)
    (svc : Service) (v : String) (now : Nat)
    (hget : getService w.services name = some svc)
    (hres : eff.resolved = some v) (hne : ¬ v = svc.version)
    (hdl : eff.downloadOk = true) (hstop : eff.stopOk = true)
    (hsym : eff.symlinkOk = true)
    (hfail : eff.startOk = false ∨ eff.healthOk = false) :
    ∃ r, (upgrade eff name w now).1 = .ok r ∧
      r.rolledBack = true ∧ ¬ r.rollbackMsg = "" ∧
      r.oldVersion = svc.version ∧
      lookupSymlink (upgrade eff name w now).2.symlinks name =
        some svc.version ∧
      name ∈ (upgrade eff name w now).2.running ∧
      getService (upgrade eff name w now).2.services name = some svc := by
  unfold upgrade
  rw [hget, hres]
  by_cases hstart : eff.startOk = true
  · have hhealth : eff.healthOk = false := by
      rcases hfail with h | h
      · rw [hstart] at h; simp at h
      · exact h
    refine ⟨{ name := name, oldVersion := svc.version, newVersion := v,
              rolledBack := true,
              rollbackMsg := "health check failed, rolled back" },
            ?_, rfl, by simp, rfl, ?_, ?_, ?_⟩ <;>
      simp [hne, hdl, hstop, hsym, hstart, hhealth, lookupSymlink_set, hget]
  · have hstart' : eff.startOk = false := by
      cases h : eff.startOk
      · rfl
      · exact absurd h hstart
    refine ⟨{ name := name, oldVersion := svc.version, newVersion := v,
              rolledBack := true,
              rollbackMsg := "service failed to start, rolled back" },
            ?_, rfl, by simp, rfl, ?_, ?_, ?_⟩ <;>
      simp [hne, hdl, hstop, hsym, hstart', lookupSymlink_set, hget]

/-- C4 witness: upgrading `svcApi` to `v1.1.0` with a failing health check
rolls back to `v1.0.0`, keeping the record at the pre-upgrade version. -/
theorem upgrade_rolled_back_witness :
    ∃ r, (upgrade upEffC4 "api" worldApi 5).1 = .ok r ∧
      r.rolledBack = true ∧ ¬ r.rollbackMsg = "" ∧
      r.oldVersion = svcApi.version ∧
      lookupSymlink (upgrade upEffC4 "api" worldApi 5).2.symlinks "api" =
        some svcApi.version ∧
      "api" ∈ (upgrade upEffC4 "api" worldApi 5).2.running ∧
      getService (upgrade upEffC4 "api" worldApi 5).2.services "api" =
        some svcApi :=
  upgrade_rolled_back upEffC4 "api" worldApi svcApi "v1.1.0" 5
    (by decide) (by decide) (by decide) (by decide) (by decide) (by decide)
    (Or.inr (by decide))

/-- C5: a remove with database destruction requested whose database drop
fails aborts with an error; the Service record is retained unchanged in
the store and no remove history entry is appended, even though the
process, unit, account, route, secrets and binaries were already torn
down. -/
theorem remove_db_drop_failure_retains_record (eff : Eff) (name : String)
    (w : World) (svc : Service) (now : Nat)
    (hget : getService w.services name = some svc)
    (hdb : ¬ svc.dbName = "") (hdrop : eff.dropDbOk = false) :
    (remove eff name true w now).1 = some .dropDbFailed ∧
    (remove eff name true w now).2.services = w.services ∧
    (remove eff name true w now).2.history = w.history ∧
    ¬ name ∈ (remove eff name true w now).2.units ∧
    ¬ name ∈ (remove eff name true w now).2.running ∧
    ¬ name ∈ (remove eff name true w now).2.users ∧
    ¬ name ∈ (remove eff name true w now).2.envFiles ∧
    (∀ ver, ¬ (name, ver) ∈ (remove eff name true w now).2.artifacts) ∧
    (¬ svc.routeValue = "" →
      ¬ name ∈ (remove eff name true w now).2.nginxConfigs) := by
  unfold remove
  rw [hget]
  by_cases hr : svc.routeValue = "" <;>
    simp [hdb, hdrop, hr, List.mem_filter]

/-- C5 witness: removing `svcApi` with `dropDB` and a failing drop keeps
the record and appends no history. -/
theorem remove_db_drop_failure_retains_record_witness :
    (remove rmEffC5 "api" true worldApi 3).1 = some .dropDbFailed ∧
    (remove rmEffC5 "api" true worldApi 3).2.services = worldApi.services ∧
    (remove rmEffC5 "api" true worldApi 3).2.history = worldApi.history ∧
    ¬ "api" ∈ (remove rmEffC5 "api" true worldApi 3).2.units ∧
    ¬ "api" ∈ (remove rmEffC5 "api" true worldApi 3).2.running ∧
    ¬ "api" ∈ (remove rmEffC5 "api" true worldApi 3).2.users ∧
    ¬ "api" ∈ (remove rmEffC5 "api" true worldApi 3).2.envFiles ∧
    ¬ ("api", "v1.0.0") ∈ (remove rmEffC5 "api" true worldApi 3).2.artifacts ∧
    ¬ "api" ∈ (remove rmEffC5 "api" true worldApi 3).2.nginxConfigs := by
  have h := remove_db_drop_failure_retains_record rmEffC5 "api" worldApi
    svcApi 3 (by decide) (by decide) (by decide)
  exact ⟨h.1, h.2.1, h.2.2.1, h.2.2.2.1, h.2.2.2.2.1, h.2.2.2.2.2.1,
         h.2.2.2.2.2.2.1, h.2.2.2.2.2.2.2.1 "v1.0.0",
         h.2.2.2.2.2.2.2.2 (by decide)⟩

/-- C1 counterexample: in the deploy scenario where only the nginx write
fails, Deploy returns success with the warning and an empty-route result,
but the persisted Service record carries the requested route fields
(`routeValue = "api.example.com"`, `routeType = "subdomain"`), not empty
ones as the claim states. -/
theorem deploy_nginx_failure_record_route_cx :
    (deploy 3000 4000 c1eff reqApi emptyWorld 0).1 =
      .ok { name := "api", version := "v1.0.0", port := 3000, route := "",
            routeType := "", dbName := "gc_api", nginxSkip := true,
            nginxWarn := "nginx test failed" } ∧
    getService (deploy 3000 4000 c1eff reqApi emptyWorld 0).2.services
      "api" =
      some { name := "api", repo := "owner/api", version := "v1.0.0",
             prevVersion := "", port := 3000, routeType := "subdomain",
             routeValue := "api.example.com", dbName := "gc_api",
             dbUser := "gc_api", extraEnv := [], deployedAt := 0,
             updatedAt := 0 } :=
  ⟨rfl, rfl⟩

/-- C1 amended: a deploy in which every step up to and including process
start succeeds but route activation fails returns success carrying the
non-fatal warning; the returned result reports empty route fields, the
Service record is persisted — carrying the requested route values rather
than empty ones — and the process and (when requested) the database remain
provisioned. -/
theorem deploy_nginx_failure_nonfatal (rs re : Nat) (eff : Eff)
    (req : DeployRequest) (w : World) (now : Nat) (v : String) (port : Nat)
    (hvalid : validServiceName (deployName req) = true)
    (hfree : ∀ s ∈ w.services, ¬ s.name = deployName req ∧ ¬ s.port = port)
    (hres : eff.resolved = some v)
    (hport : resolvePort rs re w.services req.port = .ok port)
    (hdl : eff.downloadOk = true) (hcdb : eff.createDbOk = true)
    (hmk : eff.mkdirOk = true) (hwe : eff.writeEnvOk = true)
    (hcu : eff.createUserOk = true) (hwu : eff.writeUnitOk = true)
    (hdr : eff.daemonReloadOk = true) (hen : eff.enableOk = true)
    (hst : eff.startOk = true) (hroute : ¬ req.route = "")
    (hng : eff.nginxWriteOk = false) (hins : eff.insertFault = false) :
    (deploy rs re eff req w now).1 =
      .ok { name := deployName req, version := v, port := port,
            route := "", routeType := "",
            dbName := if req.noDB then "" else "gc_" ++ deployName req,
            nginxSkip := true, nginxWarn := eff.nginxErrMsg } ∧
    getService (deploy rs re eff req w now).2.services (deployName req) =
      some (mkDeployService req (deployName req) v
        (if req.noDB then "" else "gc_" ++ deployName req) port now) ∧
    (mkDeployService req (deployName req) v
      (if req.noDB then "" else "gc_" ++ deployName req) port
      now).routeValue = req.route ∧
    deployName req ∈ (deploy rs re eff req w now).2.running ∧
    (req.noDB = false →
      deployName req ∈ (deploy rs re eff req w now).2.databases) := by
  have hnone : getService w.services (deployName req) = none :=
    (getService_eq_none _ _).mpr (fun s hs => (hfree s hs).1)
  by_cases hnodb : req.noDB
  · have hany : w.services.any (fun s =>
        s.name = (mkDeployService req (deployName req) v "" port now).name ∨
        s.port = (mkDeployService req (deployName req) v "" port
          now).port) = false := by
      rw [← Bool.not_eq_true, List.any_eq_true]
      rintro ⟨s, hs, hp⟩
      rcases hfree s hs with ⟨h1, h2⟩
      simp only [mkDeployService, decide_eq_true_eq] at hp
      rcases hp with h | h
      · exact h1 h
      · exact h2 h
    have hins2 : insertService eff.insertFault w.services
        (mkDeployService req (deployName req) v "" port now) =
        some (w.services ++
          [mkDeployService req (deployName req) v "" port now]) := by
      unfold insertService
      rw [hins, hany]
      simp
    have happ : getService (w.services ++
        [mkDeployService req (deployName req) v "" port now])
        (deployName req) =
        some (mkDeployService req (deployName req) v "" port now) := by
      have := getService_append w.services
        (mkDeployService req (deployName req) v "" port now)
        (fun s hs => by
          simpa [mkDeployService] using (hfree s hs).1)
      simpa [mkDeployService] using this
    refine ⟨?_, ?_, rfl, ?_, ?_⟩ <;>
      simp [deploy, recordState, hvalid, hnone, hres, hport, hdl, hcdb,
            hmk, hwe, hcu, hwu, hdr, hen, hst, hroute, hng, hnodb, hins2,
            happ]
  · have hany : w.services.any (fun s =>
        s.name = (mkDeployService req (deployName req) v
          ("gc_" ++ deployName req) port now).name ∨
        s.port = (mkDeployService req (deployName req) v
          ("gc_" ++ deployName req) port now).port) = false := by
      rw [← Bool.not_eq_true, List.any_eq_true]
      rintro ⟨s, hs, hp⟩
      rcases hfree s hs with ⟨h1, h2⟩
      simp only [mkDeployService, decide_eq_true_eq] at hp
      rcases hp with h | h
      · exact h1 h
      · exact h2 h
    have hins2 : insertService eff.insertFault w.services
        (mkDeployService req (deployName req) v ("gc_" ++ deployName req)
          port now) =
        some (w.services ++
          [mkDeployService req (deployName req) v ("gc_" ++ deployName req)
            port now]) := by
      unfold insertService
      rw [hins, hany]
      simp
    have happ : getService (w.services ++
        [mkDeployService req (deployName req) v ("gc_" ++ deployName req)
          port now]) (deployName req) =
        some (mkDeployService req (deployName req) v
          ("gc_" ++ deployName req) port now) := by
      have := getService_append w.services
        (mkDeployService req (deployName req) v ("gc_" ++ deployName req)
          port now)
        (fun s hs => by
          simpa [mkDeployService] using (hfree s hs).1)
      simpa [mkDeployService] using this
    refine ⟨?_, ?_, rfl, ?_, ?_⟩ <;>
      simp [deploy, recordState, hvalid, hnone, hres, hport, hdl, hcdb,
            hmk, hwe, hcu, hwu, hdr, hen, hst, hroute, hng, hnodb, hins2,
            happ]

/-- C1 witness: the amended statement evaluated on the concrete
nginx-failing deploy scenario. -/
theorem deploy_nginx_failure_nonfatal_witness :
    (deploy 3000 4000 c1eff reqApi emptyWorld 0).1 =
      .ok { name := "api", version := "v1.0.0", port := 3000, route := "",
            routeType := "",
            dbName := if reqApi.noDB then "" else "gc_" ++ deployName reqApi,
            nginxSkip := true, nginxWarn := c1eff.nginxErrMsg } ∧
    getService (deploy 3000 4000 c1eff reqApi emptyWorld 0).2.services
        (deployName reqApi) =
      some (mkDeployService reqApi (deployName reqApi) "v1.0.0"
        (if reqApi.noDB then "" else "gc_" ++ deployName reqApi) 3000 0) ∧
    "api" ∈ (deploy 3000 4000 c1eff reqApi emptyWorld 0).2.running ∧
    "api" ∈ (deploy 3000 4000 c1eff reqApi emptyWorld 0).2.databases := by
  have h := deploy_nginx_failure_nonfatal 3000 4000 c1eff reqApi emptyWorld
    0 "v1.0.0" 3000 (by decide) (by decide) rfl rfl rfl rfl rfl rfl rfl rfl
    rfl rfl rfl (by decide) rfl rfl
  exact ⟨h.1, h.2.1, h.2.2.2.1, h.2.2.2.2 rfl⟩

/-- C2 counterexample: a deploy that fails at `Enable` — after account
creation and unit write succeeded — with the binary-removal compensation
also failing.  Deploy returns the failure, yet the created account, the
unit file and the fetched artifact all remain: the claim's "no artifact,
unit, account … remains" is false on the code, because the systemd group
is journaled only after start succeeds and a failed compensation leaves
its resource behind. -/
theorem deploy_failure_residue_cx :
    (deploy 3000 4000 c2eff reqApi emptyWorld 0).1 =
      .error { original := .enableUnit, issues := ["rollback binary"] } ∧
    "api" ∈ (deploy 3000 4000 c2eff reqApi emptyWorld 0).2.users ∧
    "api" ∈ (deploy 3000 4000 c2eff reqApi emptyWorld 0).2.units ∧
    ("api", "v1.0.0") ∈ (deploy 3000 4000 c2eff reqApi emptyWorld 0).2.artifacts :=
  ⟨rfl, by decide, by decide, by decide⟩

/-- A compensation never adds an artifact. -/
theorem compensate_artifacts_sub (eff : Eff) (n v : String) (w : World)
    (s : String) (p : String × String)
    (hp : p ∈ (compensate eff n v w s).2.artifacts) : p ∈ w.artifacts := by
  revert hp
  unfold compensate
  split <;> (try split) <;> intro hp <;>
    first
      | exact hp
      | (simp only [List.mem_filter] at hp; exact hp.1)

/-- A compensation never adds a database. -/
theorem compensate_databases_sub (eff : Eff) (n v : String) (w : World)
    (s : String) (x : String)
    (hx : x ∈ (compensate eff n v w s).2.databases) : x ∈ w.databases := by
  revert hx
  unfold compensate
  split <;> (try split) <;> intro hx <;>
    first
      | exact hx
      | (simp only [List.mem_filter] at hx; exact hx.1)

/-- A compensation never adds a secrets file. -/
theorem compensate_envFiles_sub (eff : Eff) (n v : String) (w : World)
    (s : String) (x : String)
    (hx : x ∈ (compensate eff n v w s).2.envFiles) : x ∈ w.envFiles := by
  revert hx
  unfold compensate
  split <;> (try split) <;> intro hx <;>
    first
      | exact hx
      | (simp only [List.mem_filter] at hx; exact hx.1)

/-- A compensation never adds a route config. -/
theorem compensate_nginx_sub (eff : Eff) (n v : String) (w : World)
    (s : String) (x : String)
    (hx : x ∈ (compensate eff n v w s).2.nginxConfigs) :
    x ∈ w.nginxConfigs := by
  revert hx
  unfold compensate
  split <;> (try split) <;> intro hx <;>
    first
      | exact hx
      | (simp only [List.mem_filter] at hx; exact hx.1)

/-- A successful binary compensation removes the fetched artifact. -/
theorem compensate_binary_removes (eff : Eff) (n v : String) (w : World)
    (hrb : eff.rbBinaryOk = true) :
    ¬ (n, v) ∈ (compensate eff n v w "binary").2.artifacts := by
  unfold compensate
  simp [hrb, List.mem_filter]

/-- A successful database compensation drops the created database. -/
theorem compensate_database_removes (eff : Eff) (n v : String) (w : World)
    (hrb : eff.dropDbOk = true) :
    ¬ n ∈ (compensate eff n v w "database").2.databases := by
  unfold compensate
  simp [hrb, List.mem_filter]

/-- A successful envfile compensation removes the secrets file. -/
theorem compensate_envfile_removes (eff : Eff) (n v : String) (w : World)
    (hrb : eff.rbEnvOk = true) :
    ¬ n ∈ (compensate eff n v w "envfile").2.envFiles := by
  unfold compensate
  simp [hrb, List.mem_filter]

/-- A successful nginx compensation removes the route config. -/
theorem compensate_nginx_removes (eff : Eff) (n v : String) (w : World)
    (hrb : eff.rbNginxOk = true) :
    ¬ n ∈ (compensate eff n v w "nginx").2.nginxConfigs := by
  unfold compensate
  simp [hrb, List.mem_filter]

/-- Running compensations never adds an artifact. -/
theorem runComps_artifacts_sub (eff : Eff) (n v : String) :
    ∀ (l : List String) (w : World) (p : String × String),
      p ∈ (runComps eff n v l w).2.2.artifacts → p ∈ w.artifacts := by
  intro l
  induction l with
  | nil => intro w p hp; simpa [runComps] using hp
  | cons s rest ih =>
    intro w p hp
    simp only [runComps] at hp
    exact compensate_artifacts_sub eff n v w s p (ih _ p hp)

/-- Running compensations never adds a database. -/
theorem runComps_databases_sub (eff : Eff) (n v : String) :
    ∀ (l : List String) (w : World) (x : String),
      x ∈ (runComps eff n v l w).2.2.databases → x ∈ w.databases := by
  intro l
  induction l with
  | nil => intro w x hx; simpa [runComps] using hx
  | cons s rest ih =>
    intro w x hx
    simp only [runComps] at hx
    exact compensate_databases_sub eff n v w s x (ih _ x hx)

/-- Running compensations never adds a secrets file. -/
theorem runComps_envFiles_sub (eff : Eff) (n v : String) :
    ∀ (l : List String) (w : World) (x : String),
      x ∈ (runComps eff n v l w).2.2.envFiles → x ∈ w.envFiles := by
  intro l
  induction l with
  | nil => intro w x hx; simpa [runComps] using hx
  | cons s rest ih =>
    intro w x hx
    simp only [runComps] at hx
    exact compensate_envFiles_sub eff n v w s x (ih _ x hx)

/-- Running compensations never adds a route config. -/
theorem runComps_nginx_sub (eff : Eff) (n v : String) :
    ∀ (l : List String) (w : World) (x : String),
      x ∈ (runComps eff n v l w).2.2.nginxConfigs → x ∈ w.nginxConfigs := by
  intro l
  induction l with
  | nil => intro w x hx; simpa [runComps] using hx
  | cons s rest ih =>
    intro w x hx
    simp only [runComps] at hx
    exact compensate_nginx_sub eff n v w s x (ih _ x hx)

/-- When the journal contains the binary step and its compensation
succeeds, the fetched artifact is gone afterwards. -/
theorem runComps_binary_removes (eff : Eff) (n v : String)
    (hrb : eff.rbBinaryOk = true) :
    ∀ (l : List String) (w : World), "binary" ∈ l →
      ¬ (n, v) ∈ (runComps eff n v l w).2.2.artifacts := by
  intro l
  induction l with
  | nil => intro w h; simp at h
  | cons s rest ih =>
    intro w hmem hp
    simp only [runComps] at hp
    rcases List.mem_cons.mp hmem with heq | hrest
    · subst heq
      exact compensate_binary_removes eff n v w hrb
        (runComps_artifacts_sub eff n v rest _ _ hp)
    · exact ih _ hrest hp

/-- When the journal contains the database step and the drop succeeds, the
database is gone afterwards. -/
theorem runComps_database_removes (eff : Eff) (n v : String)
    (hrb : eff.dropDbOk = true) :
    ∀ (l : List String) (w : World), "database" ∈ l →
      ¬ n ∈ (runComps eff n v l w).2.2.databases := by
  intro l
  induction l with
  | nil => intro w h; simp at h
  | cons s rest ih =>
    intro w hmem hx
    simp only [runComps] at hx
    rcases List.mem_cons.mp hmem with heq | hrest
    · subst heq
      exact compensate_database_removes eff n v w hrb
        (runComps_databases_sub eff n v rest _ _ hx)
    · exact ih _ hrest hx

/-- When the journal contains the envfile step and its compensation
succeeds, the secrets file is gone afterwards. -/
theorem runComps_envfile_removes (eff : Eff) (n v : String)
    (hrb : eff.rbEnvOk = true) :
    ∀ (l : List String) (w : World), "envfile" ∈ l →
      ¬ n ∈ (runComps eff n v l w).2.2.envFiles := by
  intro l
  induction l with
  | nil => intro w h; simp at h
  | cons s rest ih =>
    intro w hmem hx
    simp only [runComps] at hx
    rcases List.mem_cons.mp hmem with heq | hrest
    · subst heq
      exact compensate_envfile_removes eff n v w hrb
        (runComps_envFiles_sub eff n v rest _ _ hx)
    · exact ih _ hrest hx

/-- When the journal contains the nginx step and its compensation
succeeds, the route config is gone afterwards. -/
theorem runComps_nginx_removes (eff : Eff) (n v : String)
    (hrb : eff.rbNginxOk = true) :
    ∀ (l : List String) (w : World), "nginx" ∈ l →
      ¬ n ∈ (runComps eff n v l w).2.2.nginxConfigs := by
  intro l
  induction l with
  | nil => intro w h; simp at h
  | cons s rest ih =>
    intro w hmem hx
    simp only [runComps] at hx
    rcases List.mem_cons.mp hmem with heq | hrest
    · subst heq
      exact compensate_nginx_removes eff n v w hrb
        (runComps_nginx_sub eff n v rest _ _ hx)
    · exact ih _ hrest hx

/-- The world a failing deploy step leaves behind: the store untouched,
and each journaled resource whose compensation succeeds removed. -/
theorem failRB_spec (eff : Eff) (n version : String) (j : List String)
    (wp : World) (e : StepErr)
    (hrb1 : eff.rbBinaryOk = true) (hrb2 : eff.dropDbOk = true)
    (hrb3 : eff.rbEnvOk = true) (hrb4 : eff.rbNginxOk = true)
    (hbin : "binary" ∈ j)
    (hA : ∀ ver, (n, ver) ∈ wp.artifacts → ver = version)
    (hD : "database" ∈ j ∨ ¬ n ∈ wp.databases)
    (hE : "envfile" ∈ j ∨ ¬ n ∈ wp.envFiles)
    (hN : "nginx" ∈ j ∨ ¬ n ∈ wp.nginxConfigs) :
    (failRB eff n version j wp e).2.services = wp.services ∧
    (∀ ver, ¬ (n, ver) ∈ (failRB eff n version j wp e).2.artifacts) ∧
    ¬ n ∈ (failRB eff n version j wp e).2.databases ∧
    ¬ n ∈ (failRB eff n version j wp e).2.envFiles ∧
    ¬ n ∈ (failRB eff n version j wp e).2.nginxConfigs := by
  have hw : (failRB eff n version j wp e).2 =
      (runComps eff n version j.reverse wp).2.2 := rfl
  rw [hw]
  refine ⟨(runComps_spec eff n version j.reverse wp).2.2.1, ?_, ?_, ?_, ?_⟩
  · intro ver hp
    by_cases hv : ver = version
    · rw [hv] at hp
      exact runComps_binary_removes eff n version hrb1 j.reverse wp
        (List.mem_reverse.mpr hbin) hp
    · exact hv (hA ver (runComps_artifacts_sub eff n version j.reverse wp
        _ hp))
  · intro hx
    rcases hD with h | h
    · exact runComps_database_removes eff n version hrb2 j.reverse wp
        (List.mem_reverse.mpr h) hx
    · exact h (runComps_databases_sub eff n version j.reverse wp _ hx)
  · intro hx
    rcases hE with h | h
    · exact runComps_envfile_removes eff n version hrb3 j.reverse wp
        (List.mem_reverse.mpr h) hx
    · exact h (runComps_envFiles_sub eff n version j.reverse wp _ hx)
  · intro hx
    rcases hN with h | h
    · exact runComps_nginx_removes eff n version hrb4 j.reverse wp
        (List.mem_reverse.mpr h) hx
    · exact h (runComps_nginx_sub eff n version j.reverse wp _ hx)

set_option maxHeartbeats 1600000 in
/-- C2 amended: for every deploy that fails (at any step, in particular
any step after a successful fetch), the store is unchanged and no Service
record exists for the service; and provided every compensation succeeds,
no artifact, database, secrets file, or route config created by the
journaled steps remains.  (The account and unit written before a failure
prior to process start are journaled only with the whole systemd group and
may remain, and a failed compensation leaves its resource behind -- both
shown by the counterexample.) -/
theorem deploy_failure_rolls_back_journaled (rs re : Nat) (eff : Eff)
    (req : DeployRequest) (w : World) (now : Nat)
    (hsvc : ∀ s ∈ w.services, ¬ s.name = deployName req)
    (hart : ∀ ver, ¬ (deployName req, ver) ∈ w.artifacts)
    (hdbs : ¬ deployName req ∈ w.databases)
    (henv : ¬ deployName req ∈ w.envFiles)
    (hngx : ¬ deployName req ∈ w.nginxConfigs)
    (hrb1 : eff.rbBinaryOk = true) (hrb2 : eff.dropDbOk = true)
    (hrb3 : eff.rbEnvOk = true) (hrb4 : eff.rbNginxOk = true)
    (hfail : ∀ r, ¬ (deploy rs re eff req w now).1 = .ok r) :
    (deploy rs re eff req w now).2.services = w.services ∧
    getService (deploy rs re eff req w now).2.services (deployName req)
      = none ∧
    (∀ ver, ¬ (deployName req, ver) ∈
      (deploy rs re eff req w now).2.artifacts) ∧
    ¬ deployName req ∈ (deploy rs re eff req w now).2.databases ∧
    ¬ deployName req ∈ (deploy rs re eff req w now).2.envFiles ∧
    ¬ deployName req ∈ (deploy rs re eff req w now).2.nginxConfigs := by
  have hnone : getService w.services (deployName req) = none :=
    (getService_eq_none _ _).mpr hsvc
  have keyW : ∀ (x : Except DeployFailure DeployResult),
      deploy rs re eff req w now = (x, w) →
      ((deploy rs re eff req w now).2.services = w.services ∧
       getService (deploy rs re eff req w now).2.services (deployName req)
         = none ∧
       (∀ ver, ¬ (deployName req, ver) ∈
         (deploy rs re eff req w now).2.artifacts) ∧
       ¬ deployName req ∈ (deploy rs re eff req w now).2.databases ∧
       ¬ deployName req ∈ (deploy rs re eff req w now).2.envFiles ∧
       ¬ deployName req ∈ (deploy rs re eff req w now).2.nginxConfigs) := by
    intro x hd
    rw [hd]
    exact ⟨rfl, hnone, hart, hdbs, henv, hngx⟩
  cases h1 : validServiceName (deployName req)
  case false =>
    exact keyW (.error ⟨.invalidName (deployName req), []⟩)
      (by simp [deploy, h1])
  rcases hres : eff.resolved with _ | version
  · exact keyW (.error ⟨.resolveFailed, []⟩)
      (by simp [deploy, h1, hnone, hres])
  rcases hport : resolvePort rs re w.services req.port with e0 | port
  · exact keyW (.error ⟨e0, []⟩)
      (by simp [deploy, h1, hnone, hres, hport])
  cases hdl : eff.downloadOk
  case false =>
    exact keyW (.error ⟨.fetchFailed, []⟩)
      (by simp [deploy, h1, hnone, hres, hport, hdl])
  have haPre : ∀ ver, (deployName req, ver) ∈
      w.artifacts ++ [(deployName req, version)] → ver = version := by
    intro ver hv
    rcases List.mem_append.mp hv with h | h
    · exact absurd h (hart ver)
    · simpa using h
  have key : ∀ (e : StepErr) (j : List String) (wp : World),
      deploy rs re eff req w now = failRB eff (deployName req) version j wp e →
      wp.services = w.services →
      "binary" ∈ j →
      (∀ ver, (deployName req, ver) ∈ wp.artifacts → ver = version) →
      ("database" ∈ j ∨ ¬ deployName req ∈ wp.databases) →
      ("envfile" ∈ j ∨ ¬ deployName req ∈ wp.envFiles) →
      ("nginx" ∈ j ∨ ¬ deployName req ∈ wp.nginxConfigs) →
      ((deploy rs re eff req w now).2.services = w.services ∧
       getService (deploy rs re eff req w now).2.services (deployName req)
         = none ∧
       (∀ ver, ¬ (deployName req, ver) ∈
         (deploy rs re eff req w now).2.artifacts) ∧
       ¬ deployName req ∈ (deploy rs re eff req w now).2.databases ∧
       ¬ deployName req ∈ (deploy rs re eff req w now).2.envFiles ∧
       ¬ deployName req ∈ (deploy rs re eff req w now).2.nginxConfigs) := by
    intro e j wp hd hws hbin hA hD hE hN
    have hs := failRB_spec eff (deployName req) version j wp e
      hrb1 hrb2 hrb3 hrb4 hbin hA hD hE hN
    have hserv : (deploy rs re eff req w now).2.services = w.services := by
      rw [hd]; exact hs.1.trans hws
    refine ⟨hserv, by rw [hserv]; exact hnone, ?_, ?_, ?_, ?_⟩ <;> rw [hd]
    · exact hs.2.1
    · exact hs.2.2.1
    · exact hs.2.2.2.1
    · exact hs.2.2.2.2
  cases hnodb : req.noDB
  case true =>
    cases hmk : eff.mkdirOk
    case false =>
      exact key .createEnvDir _ _
        (by simp [deploy, h1, hnone, hres, hport, hdl, hnodb, hmk]; rfl)
        (by simp) (by simp) (by intro ver hv; exact haPre ver hv)
        (by exact Or.inr hdbs) (by exact Or.inr henv) (by exact Or.inr hngx)
    cases hwe : eff.writeEnvOk
    case false =>
      exact key .writeEnv _ _
        (by simp [deploy, h1, hnone, hres, hport, hdl, hnodb, hmk, hwe]; rfl)
        (by simp) (by simp) (by intro ver hv; exact haPre ver hv)
        (by exact Or.inr hdbs) (by exact Or.inr henv) (by exact Or.inr hngx)
    cases hcu : eff.createUserOk
    case false =>
      exact key .createUser _ _
        (by simp [deploy, h1, hnone, hres, hport, hdl, hnodb, hmk, hwe, hcu]; rfl)
        (by simp) (by simp) (by intro ver hv; exact haPre ver hv)
        (by exact Or.inr hdbs) (by simp) (by exact Or.inr hngx)
    cases hwu : eff.writeUnitOk
    case false =>
      exact key .writeUnit _ _
        (by simp [deploy, h1, hnone, hres, hport, hdl, hnodb, hmk, hwe, hcu,
                  hwu]; rfl)
        (by simp) (by simp) (by intro ver hv; exact haPre ver hv)
        (by exact Or.inr hdbs) (by simp) (by exact Or.inr hngx)
    cases hdr : eff.daemonReloadOk
    case false =>
      exact key .daemonReload _ _
        (by simp [deploy, h1, hnone, hres, hport, hdl, hnodb, hmk, hwe, hcu,
                  hwu, hdr]; rfl)
        (by simp) (by simp) (by intro ver hv; exact haPre ver hv)
        (by exact Or.inr hdbs) (by simp) (by exact Or.inr hngx)
    cases hen : eff.enableOk
    case false =>
      exact key .enableUnit _ _
        (by simp [deploy, h1, hnone, hres, hport, hdl, hnodb, hmk, hwe, hcu,
                  hwu, hdr, hen]; rfl)
        (by simp) (by simp) (by intro ver hv; exact haPre ver hv)
        (by exact Or.inr hdbs) (by simp) (by exact Or.inr hngx)
    cases hst : eff.startOk
    case false =>
      exact key .startUnit _ _
        (by simp [deploy, h1, hnone, hres, hport, hdl, hnodb, hmk, hwe, hcu,
                  hwu, hdr, hen, hst]; rfl)
        (by simp) (by simp) (by intro ver hv; exact haPre ver hv)
        (by exact Or.inr hdbs) (by simp) (by exact Or.inr hngx)
    by_cases hroute : req.route = ""
    · rcases hins2 : insertService eff.insertFault w.services
        (mkDeployService req (deployName req) version "" port now)
        with _ | ss
      · exact key .recordState _ _
          (by simp [deploy, recordState, h1, hnone, hres, hport, hdl, hnodb,
                    hmk, hwe, hcu, hwu, hdr, hen, hst, hroute, hins2]; rfl)
          (by simp) (by simp) (by intro ver hv; exact haPre ver hv)
          (by exact Or.inr hdbs) (by simp) (by exact Or.inr hngx)
      · exfalso
        exact hfail _
          (by simp [deploy, recordState, h1, hnone, hres, hport, hdl, hnodb,
                    hmk, hwe, hcu, hwu, hdr, hen, hst, hroute, hins2]; rfl)
    · cases hng : eff.nginxWriteOk
      ·
        rcases hins2 : insertService eff.insertFault w.services
          (mkDeployService req (deployName req) version "" port now)
          with _ | ss
        · exact key .recordState _ _
            (by simp [deploy, recordState, h1, hnone, hres, hport, hdl,
                      hnodb, hmk, hwe, hcu, hwu, hdr, hen, hst, hroute, hng,
                      hins2]; rfl)
            (by simp) (by simp) (by intro ver hv; exact haPre ver hv)
            (by exact Or.inr hdbs) (by simp) (by exact Or.inr hngx)
        · exfalso
          exact hfail _
            (by simp [deploy, recordState, h1, hnone, hres, hport, hdl,
                      hnodb, hmk, hwe, hcu, hwu, hdr, hen, hst, hroute, hng,
                      hins2]; rfl)
      ·
        rcases hins2 : insertService eff.insertFault w.services
          (mkDeployService req (deployName req) version "" port now)
          with _ | ss
        · exact key .recordState _ _
            (by simp [deploy, recordState, h1, hnone, hres, hport, hdl,
                      hnodb, hmk, hwe, hcu, hwu, hdr, hen, hst, hroute, hng,
                      hins2]; rfl)
            (by simp) (by simp) (by intro ver hv; exact haPre ver hv)
            (by exact Or.inr hdbs) (by simp) (by simp)
        · exfalso
          exact hfail _
            (by simp [deploy, recordState, h1, hnone, hres, hport, hdl,
                      hnodb, hmk, hwe, hcu, hwu, hdr, hen, hst, hroute, hng,
                      hins2]; rfl)
  case false =>
    cases hdb2 : eff.createDbOk
    case false =>
      exact key .createDb _ _
        (by simp [deploy, h1, hnone, hres, hport, hdl, hnodb, hdb2]; rfl)
        (by simp) (by simp) (by intro ver hv; exact haPre ver hv)
        (by exact Or.inr hdbs) (by exact Or.inr henv) (by exact Or.inr hngx)
    cases hmk : eff.mkdirOk
    case false =>
      exact key .createEnvDir _ _
        (by simp [deploy, h1, hnone, hres, hport, hdl, hnodb, hdb2, hmk]; rfl)
        (by simp) (by simp) (by intro ver hv; exact haPre ver hv)
        (by simp) (by exact Or.inr henv) (by exact Or.inr hngx)
    cases hwe : eff.writeEnvOk
    case false =>
      exact key .writeEnv _ _
        (by simp [deploy, h1, hnone, hres, hport, hdl, hnodb, hdb2, hmk,
                  hwe]; rfl)
        (by simp) (by simp) (by intro ver hv; exact haPre ver hv)
        (by simp) (by exact Or.inr henv) (by exact Or.inr hngx)
    cases hcu : eff.createUserOk
    case false =>
      exact key .createUser _ _
        (by simp [deploy, h1, hnone, hres, hport, hdl, hnodb, hdb2, hmk,
                  hwe, hcu]; rfl)
        (by simp) (by simp) (by intro ver hv; exact haPre ver hv)
        (by simp) (by simp) (by exact Or.inr hngx)
    cases hwu : eff.writeUnitOk
    case false =>
      exact key .writeUnit _ _
        (by simp [deploy, h1, hnone, hres, hport, hdl, hnodb, hdb2, hmk,
                  hwe, hcu, hwu]; rfl)
        (by simp) (by simp) (by intro ver hv; exact haPre ver hv)
        (by simp) (by simp) (by exact Or.inr hngx)
    cases hdr : eff.daemonReloadOk
    case false =>
      exact key .daemonReload _ _
        (by simp [deploy, h1, hnone, hres, hport, hdl, hnodb, hdb2, hmk,
                  hwe, hcu, hwu, hdr]; rfl)
        (by simp) (by simp) (by intro ver hv; exact haPre ver hv)
        (by simp) (by simp) (by exact Or.inr hngx)
    cases hen : eff.enableOk
    case false =>
      exact key .enableUnit _ _
        (by simp [deploy, h1, hnone, hres, hport, hdl, hnodb, hdb2, hmk,
                  hwe, hcu, hwu, hdr, hen]; rfl)
        (by simp) (by simp) (by intro ver hv; exact haPre ver hv)
        (by simp) (by simp) (by exact Or.inr hngx)
    cases hst : eff.startOk
    case false =>
      exact key .startUnit _ _
        (by simp [deploy, h1, hnone, hres, hport, hdl, hnodb, hdb2, hmk,
                  hwe, hcu, hwu, hdr, hen, hst]; rfl)
        (by simp) (by simp) (by intro ver hv; exact haPre ver hv)
        (by simp) (by simp) (by exact Or.inr hngx)
    by_cases hroute : req.route = ""
    · rcases hins2 : insertService eff.insertFault w.services
        (mkDeployService req (deployName req) version
          ("gc_" ++ deployName req) port now) with _ | ss
      · exact key .recordState _ _
          (by simp [deploy, recordState, h1, hnone, hres, hport, hdl, hnodb,
                    hdb2, hmk, hwe, hcu, hwu, hdr, hen, hst, hroute, hins2]; rfl)
          (by simp) (by simp) (by intro ver hv; exact haPre ver hv)
          (by simp) (by simp) (by exact Or.inr hngx)
      · exfalso
        exact hfail _
          (by simp [deploy, recordState, h1, hnone, hres, hport, hdl, hnodb,
                    hdb2, hmk, hwe, hcu, hwu, hdr, hen, hst, hroute, hins2]; rfl)
    · cases hng : eff.nginxWriteOk
      ·
        rcases hins2 : insertService eff.insertFault w.services
          (mkDeployService req (deployName req) version
            ("gc_" ++ deployName req) port now) with _ | ss
        · exact key .recordState _ _
            (by simp [deploy, recordState, h1, hnone, hres, hport, hdl,
                      hnodb, hdb2, hmk, hwe, hcu, hwu, hdr, hen, hst, hroute,
                      hng, hins2]; rfl)
            (by simp) (by simp) (by intro ver hv; exact haPre ver hv)
            (by simp) (by simp) (by exact Or.inr hngx)
        · exfalso
          exact hfail _
            (by simp [deploy, recordState, h1, hnone, hres, hport, hdl,
                      hnodb, hdb2, hmk, hwe, hcu, hwu, hdr, hen, hst, hroute,
                      hng, hins2]; rfl)
      ·
        rcases hins2 : insertService eff.insertFault w.services
          (mkDeployService req (deployName req) version
            ("gc_" ++ deployName req) port now) with _ | ss
        · exact key .recordState _ _
            (by simp [deploy, recordState, h1, hnone, hres, hport, hdl,
                      hnodb, hdb2, hmk, hwe, hcu, hwu, hdr, hen, hst, hroute,
                      hng, hins2]; rfl)
            (by simp) (by simp) (by intro ver hv; exact haPre ver hv)
            (by simp) (by simp) (by simp)
        · exfalso
          exact hfail _
            (by simp [deploy, recordState, h1, hnone, hres, hport, hdl,
                      hnodb, hdb2, hmk, hwe, hcu, hwu, hdr, hen, hst, hroute,
                      hng, hins2]; rfl)

/-- C2 witness: the amended statement evaluated on a deploy of `reqApi`
failing at `Enable` with all compensations succeeding. -/
theorem deploy_failure_rolls_back_journaled_witness :
    (deploy 3000 4000 c2wEff reqApi emptyWorld 0).2.services =
      emptyWorld.services ∧
    getService (deploy 3000 4000 c2wEff reqApi emptyWorld 0).2.services
      (deployName reqApi) = none ∧
    ¬ (deployName reqApi, "v1.0.0") ∈
      (deploy 3000 4000 c2wEff reqApi emptyWorld 0).2.artifacts ∧
    ¬ deployName reqApi ∈
      (deploy 3000 4000 c2wEff reqApi emptyWorld 0).2.databases ∧
    ¬ deployName reqApi ∈
      (deploy 3000 4000 c2wEff reqApi emptyWorld 0).2.envFiles ∧
    ¬ deployName reqApi ∈
      (deploy 3000 4000 c2wEff reqApi emptyWorld 0).2.nginxConfigs := by
  have h := deploy_failure_rolls_back_journaled 3000 4000 c2wEff reqApi
    emptyWorld 0 (by decide) (fun ver h => by simp [emptyWorld] at h)
    (by decide) (by decide) (by decide) rfl rfl rfl rfl
    (fun r hr => by
      rw [show (deploy 3000 4000 c2wEff reqApi emptyWorld 0).1 =
        .error { original := .enableUnit, issues := [] } from rfl] at hr
      exact Except.noConfusion hr)
  exact ⟨h.1, h.2.1, h.2.2.1 "v1.0.0", h.2.2.2.1, h.2.2.2.2.1,
         h.2.2.2.2.2⟩

end GC